import Mathlib

/-!
Verification of the query-translation-and-execution pipeline of the
Ecommerce-ai-agent repository.

The Python sources are shallowly embedded:
* `llm_helper.py`: `_clean_sql_response` (sanitization), `generate_sql_query`,
  `format_response`.  The language-model backend is an external effect; its
  behaviour on one call is modelled by the oracle type `GenOutcome`.
* `main.py`: the HTTP handlers `answer_question` (`/query`),
  `answer_question_stream` (`/query/stream`), `visualize_data`
  (`/query/visualize`), `clean_answer` (`/query/clean`).  The SQLAlchemy
  store is modelled by an oracle `String → ExecResult`; session open/close
  calls are recorded in a `Trace`.

Strings are handled as `List Char`.  Python `str.split()` whitespace is
modelled by the six ASCII whitespace characters.
-/

set_option linter.unusedVariables false
set_option maxRecDepth 65536

namespace Ecom

/-- Python whitespace (ASCII) as used by `str.split()` / `str.strip()`. -/
def pySpace (c : Char) : Bool :=
  c = ' ' || c = '\t' || c = '\n' || c = '\r' || c = '\x0b' || c = '\x0c'

/-- `str.startswith`: `listStarts p l` iff `p` is a prefix of `l`. -/
def listStarts : List Char → List Char → Bool
  | [], _ => true
  | _ :: _, [] => false
  | a :: as, b :: bs => if a = b then listStarts as bs else false

/-- `str.endswith`: `p` is a suffix of `l`. -/
def listEnds (p l : List Char) : Bool :=
  listStarts p.reverse l.reverse

/-- Left strip: drop leading Python whitespace. -/
def stripLeft (l : List Char) : List Char :=
  l.dropWhile pySpace

/-- Right strip: drop trailing Python whitespace. -/
def stripRight (l : List Char) : List Char :=
  (l.reverse.dropWhile pySpace).reverse

/-- Python `str.strip()`. -/
def pyStrip (l : List Char) : List Char :=
  stripRight (stripLeft l)

/-- The characters of the fence marker with language tag, from
`sql.startswith("```sql")` in `_clean_sql_response`. -/
def fenceSql : List Char :=
  ("```sql").toList

/-- The characters of the bare fence marker. -/
def fence3 : List Char :=
  ("```").toList

/-- Step 1 of `_clean_sql_response` (llm_helper.py lines 82-85): strip a
leading/trailing fenced-code marker, with or without the `sql` tag.  The
Python slices `sql[6:-3]` / `sql[3:-3]` are `(drop a) ∘ (take (len-a-b))`. -/
def fenceStrip (l : List Char) : List Char :=
  if listStarts fenceSql l && listEnds fence3 l then
    pyStrip ((l.drop 6).take (l.length - 9))
  else if listStarts fence3 l && listEnds fence3 l then
    pyStrip ((l.drop 3).take (l.length - 6))
  else l

/-- One line of `re.sub(r'--.*$', '', sql, flags=re.MULTILINE)`: truncate
the line at the first occurrence of `--`. -/
def dropComment : List Char → List Char
  | [] => []
  | [c] => [c]
  | a :: b :: rest => if a = '-' ∧ b = '-' then [] else a :: dropComment (b :: rest)

/-- Split into lines at `'\n'` (the line structure seen by the MULTILINE
regex; `$` matches only before `'\n'` and at the end). -/
def splitNL : List Char → List (List Char)
  | [] => [[]]
  | c :: rest =>
    if c = '\n' then [] :: splitNL rest
    else
      match splitNL rest with
      | [] => [[c]]
      | line :: ls => (c :: line) :: ls

/-- Join pieces with a single separator character (`sep.join` in Python). -/
def joinSep (s : Char) : List (List Char) → List Char
  | [] => []
  | [x] => x
  | x :: y :: t => x ++ s :: joinSep s (y :: t)

/-- Step 2 of `_clean_sql_response` (line 88): remove line comments,
i.e. truncate every `'\n'`-line at its first `--`. -/
def removeComments (l : List Char) : List Char :=
  joinSep '\n' ((splitNL l).map dropComment)

/-- Accumulator version of Python `str.split()`: maximal runs of
non-whitespace characters.  `acc` holds the current word reversed. -/
def wordsAux (acc : List Char) : List Char → List (List Char)
  | [] => if acc = [] then [] else [acc.reverse]
  | c :: rest =>
    if pySpace c then
      if acc = [] then wordsAux [] rest
      else acc.reverse :: wordsAux [] rest
    else wordsAux (c :: acc) rest

/-- Python `str.split()` with no arguments. -/
def pyWords (l : List Char) : List (List Char) :=
  wordsAux [] l

/-- Step 3 of `_clean_sql_response` (line 91): `' '.join(sql.split())`. -/
def collapseWS (l : List Char) : List Char :=
  joinSep ' ' (pyWords l)

/-- `sql.endswith(";")`. -/
def endsSemi (l : List Char) : Bool :=
  match l.getLast? with
  | some c => c = ';'
  | none => false

/-- Step 4 of `_clean_sql_response` (lines 94-95): append `';'` if absent. -/
def ensureSemi (l : List Char) : List Char :=
  if endsSemi l then l else l ++ [';']

/-- `LLMHelper._clean_sql_response` (llm_helper.py lines 71-97): fence
stripping, comment removal, whitespace collapsing, terminator, final
`strip()`. -/
def cleanSql (l : List Char) : List Char :=
  pyStrip (ensureSemi (collapseWS (removeComments (fenceStrip l))))

/-- `_clean_sql_response` on `String`. -/
def cleanSqlStr (s : String) : String :=
  String.mk (cleanSql s.toList)

/-- Python `str.strip()` on `String`. -/
def pyStripStr (s : String) : String :=
  String.mk (pyStrip s.toList)

/-- `str.split()` on `String`, as a list of words. -/
def pyWordsStr (s : String) : List String :=
  (pyWords s.toList).map String.mk

/-- `s.startswith(p)` on `String`. -/
def strStarts (p s : String) : Bool :=
  listStarts p.toList s.toList

/-- The reserved error prefix checked by the handlers
(`sql_query.startswith("Error")` in main.py). -/
def errorWord : String :=
  "Error"

/-- Prefix of every failure result of `generate_sql_query`
(llm_helper.py line 151: `f"Error generating SQL: {str(e)}"`). -/
def errGenPrefix : String :=
  "Error generating SQL: "

/-- Prefix of every failure result of `format_response`
(llm_helper.py line 198: `f"Error formatting response: {str(e)}"`). -/
def errFmtPrefix : String :=
  "Error formatting response: "

/-- Outcome of one call to the language-model backend
(`self.model.generate_content(...)` followed by the `response.text` access):
the external call either raises with some message or returns text. -/
inductive GenOutcome where
  | raises (msg : String)
  | returns (text : String)
deriving DecidableEq, Repr

/-- `LLMHelper.generate_sql_query` (llm_helper.py lines 99-153).
`modelInit` models `self.model` being non-`None`; `resp` is the backend's
behaviour on the built prompt.  The `try/except` recovers every failure into
an error-marker string; an empty `response.text` raises
`ValueError("Empty response from model")` which is likewise recovered. -/
def generate_sql_query (modelInit : Bool) (resp : GenOutcome) : String :=
  if modelInit = false then errGenPrefix ++ ("Model not initialized")
  else
    match resp with
    | .raises m => errGenPrefix ++ m
    | .returns t =>
      if t = ("") then errGenPrefix ++ ("Empty response from model")
      else cleanSqlStr t

/-- `LLMHelper.format_response` (llm_helper.py lines 155-200): same failure
policy as `generate_sql_query`; on success returns `response.text.strip()`. -/
def format_response (modelInit : Bool) (resp : GenOutcome) : String :=
  if modelInit = false then errFmtPrefix ++ ("Model not initialized")
  else
    match resp with
    | .raises m => errFmtPrefix ++ m
    | .returns t =>
      if t = ("") then errFmtPrefix ++ ("Empty response from model")
      else pyStripStr t

/-- A scalar cell value of a result row (string, or number; a column key
missing from a row plays the role of pandas `NaN`). -/
inductive PVal where
  | i (n : Int)
  | s (t : String)
deriving DecidableEq, Repr

/-- One result row: the ordered column-name → value mapping produced by
`dict(row) for row in result.mappings()`. -/
abbrev DRow : Type :=
  List (String × PVal)

/-- Outcome of `session.execute(text(sql))` at the store: rows, or a raised
store-level error. -/
inductive ExecResult where
  | ok (rows : List DRow)
  | err (msg : String)
deriving DecidableEq, Repr

/-- The oracles a request runs against: the long-lived model handle state,
the backend's behaviour on the SQL prompt, the backend's behaviour on the
format prompt (a function of the rows interpolated into that prompt), and
the store's behaviour on the executed SQL text. -/
structure Env where
  modelInit : Bool
  genResp : GenOutcome
  fmtResp : List DRow → GenOutcome
  exec : String → ExecResult

/-- Session accounting for one request: how many scoped sessions were
opened by `get_session(engine)` and how many were closed by
`session.close()` before the handler returned. -/
structure Trace where
  opened : Nat
  closed : Nat
deriving DecidableEq, Repr

/-- Result of the `/query` handler. -/
inductive QueryResponse where
  | success (question sql answer : String) (data : List DRow)
  | httpError (status : Nat) (detail : String)
deriving DecidableEq, Repr

/-- SQL generated for this request: `llm_helper.generate_sql_query(question,
SCHEMA_INFO)` in each handler. -/
def genSqlOf (env : Env) : String :=
  generate_sql_query env.modelInit env.genResp

/-- Formatted answer for this request:
`llm_helper.format_response(question, rows)`. -/
def fmtOf (env : Env) (rows : List DRow) : String :=
  format_response env.modelInit (env.fmtResp rows)

/-- `answer_question` (`/query`, main.py lines 67-99).  The session is
opened after the generator check and closed in a `finally` block; a store
error propagates to the outer `except` and becomes a 500; an error-marker
from generator or formatter becomes a 400 with the marker as detail. -/
def answer_question (env : Env) (question : String) : QueryResponse × Trace :=
  let sql := genSqlOf env
  if strStarts errorWord sql then
    (.httpError 400 sql, ⟨0, 0⟩)
  else
    match env.exec sql with
    | .err m => (.httpError 500 m, ⟨1, 1⟩)
    | .ok rows =>
      let fmt := fmtOf env rows
      if strStarts errorWord fmt then
        (.httpError 400 fmt, ⟨1, 1⟩)
      else
        (.success question sql fmt rows, ⟨1, 1⟩)

/-- `answer_question_stream` (`/query/stream`, main.py lines 101-136): the
list of chunks yielded by the generator, in order, plus the session trace.
The SQL line is yielded before the session is opened; each answer word is
yielded as `word + " "`. -/
def answer_question_stream (env : Env) (question : String) :
    List String × Trace :=
  let sql := genSqlOf env
  if strStarts errorWord sql then
    ([("Error: ") ++ sql ++ ("\n")], ⟨0, 0⟩)
  else
    let sqlLine := ("Generated SQL: ") ++ sql ++ ("\n\n")
    match env.exec sql with
    | .err m => ([sqlLine, ("Error: ") ++ m ++ ("\n")], ⟨1, 1⟩)
    | .ok rows =>
      let fmt := fmtOf env rows
      if strStarts errorWord fmt then
        ([sqlLine, ("Error: ") ++ fmt ++ ("\n")], ⟨1, 1⟩)
      else
        (sqlLine :: (pyWordsStr fmt).map (fun w => w ++ (" ")), ⟨1, 1⟩)

/-- `clean_answer` (`/query/clean`, main.py lines 216-236).  Unlike the
other handlers this one calls `session.close()` only on the straight-line
path: a store error jumps to the outer `except` with the session open. -/
def clean_answer (env : Env) (question : String) : String × Trace :=
  let sql := genSqlOf env
  if strStarts errorWord sql then
    (("Error: ") ++ sql, ⟨0, 0⟩)
  else
    match env.exec sql with
    | .err m => (("Error processing request: ") ++ m, ⟨1, 0⟩)
    | .ok rows => (fmtOf env rows, ⟨1, 1⟩)

/-- Value of column `c` in row `r` (`None` plays the role of pandas NaN for
a key missing from this row). -/
def lookupCol (r : DRow) (c : String) : Option PVal :=
  (r.find? (fun p => decide (p.1 = c))).map Prod.snd

/-- `df.columns` for `pd.DataFrame(list_of_dicts)`: the union of the rows'
keys in order of first appearance. -/
def dfColumns (rows : List DRow) : List String :=
  rows.foldl (fun acc r => r.foldl (fun a p => if p.1 ∈ a then a else a ++ [p.1]) acc) []

/-- Whether column `c` has a numeric dtype in `pd.DataFrame(rows)`: every
present value is a number (a missing key becomes NaN, which is numeric). -/
def isNumericColB (rows : List DRow) (c : String) : Bool :=
  rows.all (fun r =>
    match lookupCol r c with
    | some (.s _) => false
    | _ => true)

/-- Comparison on cell values used for `df.sort_values('date')`.  The
`pd.to_datetime` conversion is modelled as the identity on already-parsed
values; dates compare as numbers (or lexicographically for strings). -/
def valueLeB : PVal → PVal → Bool
  | .i a, .i b => decide (a ≤ b)
  | .i _, .s _ => true
  | .s _, .i _ => false
  | .s a, .s b => decide (a ≤ b)

/-- The `date` cell of a row (missing key sorts as the empty string). -/
def dateOf (r : DRow) : PVal :=
  match lookupCol r ("date") with
  | some v => v
  | none => .s ("")

/-- Row order used by `df.sort_values('date')`. -/
def rowDateLe (a b : DRow) : Prop :=
  valueLeB (dateOf a) (dateOf b) = true

instance : DecidableRel rowDateLe :=
  fun a b => by
    unfold rowDateLe
    infer_instance

instance : IsTotal DRow rowDateLe := by
  refine ⟨fun a b => ?_⟩
  unfold rowDateLe
  rcases dateOf a with n | s <;> rcases dateOf b with m | t <;> simp [valueLeB]
  · exact Int.le_total n m
  · exact le_total _ _

instance : IsTrans DRow rowDateLe := by
  refine ⟨fun a b c hab hbc => ?_⟩
  unfold rowDateLe at *
  revert hab hbc
  generalize dateOf a = va
  generalize dateOf b = vb
  generalize dateOf c = vc
  rcases va with n | s <;> rcases vb with m | t <;> rcases vc with k | u <;>
    simp [valueLeB] <;> intro h1 h2 <;> exact le_trans h1 h2

/-- `df = df.sort_values('date')`: ascending sort by the date column. -/
def sortByDate (rows : List DRow) : List DRow :=
  List.insertionSort rowDateLe rows

/-- One charting call issued by `visualize_data`: which columns end up on
the axes of each series. -/
inductive PlotCmd where
  | plotLine (x y : String)
  | plotBar (x y : String)
  | plotPie (values labels : String)
deriving DecidableEq, Repr

/-- `if not chart_type:` — true for an absent or empty hint. -/
def noHint (hint : Option String) : Bool :=
  match hint with
  | none => true
  | some s => s = ("")

/-- Chart-type determination (main.py lines 159-166). -/
def selectChartType (rows : List DRow) (hint : Option String) : String :=
  if noHint hint then
    if ("date") ∈ dfColumns rows ∧ rows.length > 3 then ("line")
    else if rows.length ≤ 10 then ("bar")
    else ("histogram")
  else hint.getD ("")

/-- What the charting section produced: the effective chart type, the rows
as charted (date-sorted in the date branch) and the series plotted. -/
structure ChartOutput where
  chartType : String
  rows : List DRow
  cmds : List PlotCmd
deriving DecidableEq, Repr

/-- `IndexError` message for `columns[0]` on an empty index. -/
def idxErr0 : String :=
  "index 0 is out of bounds for axis 0 with size 0"

/-- `IndexError` message for `columns[1]` on a one-column index. -/
def idxErr1 : String :=
  "index 1 is out of bounds for axis 0 with size 1"

/-- The charting section of `visualize_data` (main.py lines 156-198).
In the date branch, `pd.to_datetime` turns `date` into a datetime column,
so `select_dtypes(include=['number'])` never includes it; dtypes are fixed
at DataFrame construction, hence computed from the unsorted rows.  In the
no-date branch `x = df.columns[0]` is evaluated before any chart-type
dispatch, so zero columns fault for every chart type. -/
def chartSection (rows : List DRow) (hint : Option String) :
    Except String ChartOutput :=
  let cols := dfColumns rows
  let chartType := selectChartType rows hint
  if ("date") ∈ cols then
    let rows' := sortByDate rows
    let nums := cols.filter (fun c => if c = ("date") then false else isNumericColB rows c)
    if chartType = ("line") then
      .ok ⟨chartType, rows', nums.map (fun c => PlotCmd.plotLine ("date") c)⟩
    else if chartType = ("bar") then
      match nums with
      | [] => .error idxErr0
      | y :: _ => .ok ⟨chartType, rows', [PlotCmd.plotBar ("date") y]⟩
    else .ok ⟨chartType, rows', []⟩
  else
    match cols with
    | [] => .error idxErr0
    | x :: restCols =>
      if chartType = ("bar") then
        match restCols with
        | [] => .error idxErr1
        | y :: _ => .ok ⟨chartType, rows, [PlotCmd.plotBar x y]⟩
      else if chartType = ("pie") then
        match restCols with
        | [] => .error idxErr1
        | y :: _ => .ok ⟨chartType, rows, [PlotCmd.plotPie y x]⟩
      else .ok ⟨chartType, rows, []⟩

/-- Result of the `/query/visualize` handler: a rendered image (abstracted
to its `ChartOutput`) or an HTTP error. -/
inductive VizResponse where
  | image (out : ChartOutput)
  | httpError (status : Nat) (detail : String)
deriving DecidableEq, Repr

/-- `visualize_data` (`/query/visualize`, main.py lines 138-201).  The
session is closed in a `finally` before charting; any charting fault
reaches the outer `except` and becomes a 500. -/
def visualize_data (env : Env) (question : String) (chart_type : Option String) :
    VizResponse × Trace :=
  let sql := genSqlOf env
  if strStarts errorWord sql then
    (.httpError 400 sql, ⟨0, 0⟩)
  else
    match env.exec sql with
    | .err m => (.httpError 500 m, ⟨1, 1⟩)
    | .ok rows =>
      match chartSection rows chart_type with
      | .error e => (.httpError 500 e, ⟨1, 1⟩)
      | .ok out => (.image out, ⟨1, 1⟩)

/-- Whether some plotted series uses `c` as its value column. -/
def plotsSeries (cmds : List PlotCmd) (c : String) : Bool :=
  cmds.any (fun p =>
    match p with
    | .plotLine _ y => y = c
    | .plotBar _ y => y = c
    | .plotPie v _ => v = c)

/-! Auxiliary predicates used in the statements and proofs about
sanitization. -/

/-- `--` occurs somewhere in `l` (presence of a line-comment starter). -/
def hasDD : List Char → Bool
  | [] => false
  | [_] => false
  | a :: b :: rest => (decide (a = '-') && decide (b = '-')) || hasDD (b :: rest)

/-- `p` occurs as a contiguous substring of the second argument. -/
def hasSub (p : List Char) : List Char → Bool
  | [] => listStarts p []
  | c :: t => listStarts p (c :: t) || hasSub p t

/-- Append `';'` to the last word (the word-level effect of appending `';'`
to a space-joined word list). -/
def appendLastSemi : List (List Char) → List (List Char)
  | [] => [[';']]
  | [w] => [w ++ [';']]
  | w :: y :: t => w :: appendLastSemi (y :: t)

/-- Every word is nonempty and free of Python whitespace. -/
def GoodWords (ws : List (List Char)) : Prop :=
  ∀ w ∈ ws, w ≠ [] ∧ ∀ c ∈ w, pySpace c = false

/-- Every word is free of `--`. -/
def DDfreeWords (ws : List (List Char)) : Prop :=
  ∀ w ∈ ws, hasDD w = false

/-! Concrete data used by witnesses and counterexamples. -/

/-- A question string for concrete requests. -/
def qX : String :=
  "What was total sales?"

/-- A raw backend reply that cleans to a non-error SQL statement. -/
def sqlOkRaw : String :=
  "SELECT 1"

/-- Chart type of a visualize result, if an image was produced. -/
def vizChartType (r : VizResponse × Trace) : Option String :=
  match r.1 with
  | .image o => some o.chartType
  | .httpError _ _ => none

/-- Plot commands of a chart-section result, if it succeeded. -/
def chartCmdsOf (r : Except String ChartOutput) : Option (List PlotCmd) :=
  match r with
  | .ok o => some o.cmds
  | .error _ => none

/-- Input showing that sanitization does not remove an unbalanced fence. -/
def c2input : String :=
  "```x"

/-- Raw backend output of the worked example in the spec (claim C9). -/
def c9raw : String :=
  "```sql\nSELECT * FROM product_total_sales -- all\n```"

/-- Expected sanitized statement of the worked example (claim C9). -/
def c9expected : String :=
  "SELECT * FROM product_total_sales;"

/-- Environment whose store raises on execute (for the `/query/clean`
session-leak counterexample). -/
def envLeak : Env :=
  ⟨true, .returns sqlOkRaw, fun _ => .returns ("fine"), fun _ => .err ("no such table: t")⟩

/-- Environment whose model handle was never initialized. -/
def envNoModel : Env :=
  ⟨false, .returns sqlOkRaw, fun _ => .returns ("fine"), fun _ => .ok []⟩

/-- Five rows with a `date` column, deliberately out of order. -/
def rowsLine5 : List DRow :=
  [[(("date"), .i 3), (("sales"), .i 10)],
   [(("date"), .i 1), (("sales"), .i 20)],
   [(("date"), .i 2), (("sales"), .i 30)],
   [(("date"), .i 5), (("sales"), .i 40)],
   [(("date"), .i 4), (("sales"), .i 50)]]

/-- Seven rows without a date column. -/
def rowsBar7 : List DRow :=
  List.replicate 7 [(("item"), .s ("x")), (("sales"), .i 5)]

/-- Fifty rows without a date column. -/
def rowsHist50 : List DRow :=
  List.replicate 50 [(("item"), .s ("x")), (("sales"), .i 5)]

/-- Two rows with a date column and two numeric columns `a` and `b`. -/
def rowsC7 : List DRow :=
  [[(("date"), .i 2), (("a"), .i 1), (("b"), .i 9)],
   [(("date"), .i 1), (("a"), .i 3), (("b"), .i 7)]]

/-- Environment returning the five dated rows. -/
def envLine : Env :=
  ⟨true, .returns sqlOkRaw, fun _ => .returns ("fine"), fun _ => .ok rowsLine5⟩

/-- Environment returning the seven undated rows. -/
def envBar7 : Env :=
  ⟨true, .returns sqlOkRaw, fun _ => .returns ("fine"), fun _ => .ok rowsBar7⟩

/-- Environment returning the fifty undated rows. -/
def envHist50 : Env :=
  ⟨true, .returns sqlOkRaw, fun _ => .returns ("fine"), fun _ => .ok rowsHist50⟩

/-- Environment returning no rows at all. -/
def envEmpty : Env :=
  ⟨true, .returns sqlOkRaw, fun _ => .returns ("fine"), fun _ => .ok []⟩

/-- Environment with a working backend for the streaming witness. -/
def envStream : Env :=
  ⟨true, .returns sqlOkRaw, fun _ => .returns ("Total sales were 1234"), fun _ => .ok []⟩

/-! ## Lemmas about prefixes and the error marker -/

theorem listStarts_self_append (p t : List Char) : listStarts p (p ++ t) = true := by
  induction p with
  | nil => rfl
  | cons x xs ih => simp [listStarts, ih]

theorem strStarts_errGen (m : String) :
    strStarts errorWord (errGenPrefix ++ m) = true := by
  show listStarts errorWord.data (errGenPrefix ++ m).data = true
  rw [String.data_append]
  have h : errGenPrefix.data = errorWord.data ++ (" generating SQL: ").data := by decide
  rw [h, List.append_assoc]
  exact listStarts_self_append _ _

theorem strStarts_errFmt (m : String) :
    strStarts errorWord (errFmtPrefix ++ m) = true := by
  show listStarts errorWord.data (errFmtPrefix ++ m).data = true
  rw [String.data_append]
  have h : errFmtPrefix.data = errorWord.data ++ (" formatting response: ").data := by decide
  rw [h, List.append_assoc]
  exact listStarts_self_append _ _

/-! ## Lemmas about occurrences of a line-comment starter -/

theorem hasDD_cons_tail {c : Char} {l : List Char} (h : hasDD (c :: l) = false) :
    hasDD l = false := by
  cases l with
  | nil => rfl
  | cons y t =>
    rw [hasDD] at h
    exact (Bool.or_eq_false_iff.mp h).2

theorem hasDD_append_left : ∀ (a b : List Char), hasDD (a ++ b) = false → hasDD a = false := by
  intro a
  induction a with
  | nil => intro b h; rfl
  | cons x a ih =>
    intro b h
    cases a with
    | nil => rfl
    | cons y a' =>
      rw [List.cons_append, List.cons_append, hasDD] at h
      rcases Bool.or_eq_false_iff.mp h with ⟨h1, h2⟩
      rw [hasDD, Bool.or_eq_false_iff]
      rw [← List.cons_append] at h2
      exact ⟨h1, ih b h2⟩

theorem hasDD_append_right : ∀ (a b : List Char), hasDD (a ++ b) = false → hasDD b = false := by
  intro a
  induction a with
  | nil => intro b h; exact h
  | cons x a ih =>
    intro b h
    rw [List.cons_append] at h
    exact ih b (hasDD_cons_tail h)

theorem hasDD_cons_mid {c : Char} {b : List Char} (hc : ¬c = '-')
    (hb : hasDD b = false) : hasDD (c :: b) = false := by
  cases b with
  | nil => rfl
  | cons y t =>
    rw [hasDD, Bool.or_eq_false_iff]
    refine ⟨?_, hb⟩
    simp [hc]

theorem hasDD_append_mid {c : Char} (hc : ¬c = '-') :
    ∀ (a b : List Char), hasDD a = false → hasDD b = false →
      hasDD (a ++ c :: b) = false := by
  intro a
  induction a with
  | nil => intro b _ hb; exact hasDD_cons_mid hc hb
  | cons x a ih =>
    intro b ha hb
    cases a with
    | nil =>
      rw [List.cons_append, List.nil_append, hasDD, Bool.or_eq_false_iff]
      refine ⟨?_, hasDD_cons_mid hc hb⟩
      simp [hc]
    | cons y a' =>
      rw [hasDD, Bool.or_eq_false_iff] at ha
      rw [List.cons_append, List.cons_append, hasDD, Bool.or_eq_false_iff]
      rw [← List.cons_append]
      exact ⟨ha.1, ih b ha.2 hb⟩

/-! ## Comment removal -/

theorem dropComment_head (b : Char) (rest : List Char) :
    dropComment (b :: rest) = [] ∨ ∃ t, dropComment (b :: rest) = b :: t := by
  cases rest with
  | nil => exact Or.inr ⟨[], rfl⟩
  | cons c r' =>
    rw [dropComment]
    split
    · exact Or.inl rfl
    · exact Or.inr ⟨dropComment (c :: r'), rfl⟩

theorem dropComment_noDD : ∀ l : List Char, hasDD (dropComment l) = false := by
  intro l
  induction l with
  | nil => rfl
  | cons x l ih =>
    cases l with
    | nil => rfl
    | cons y l' =>
      rw [dropComment]
      split
      · rfl
      · next hxy =>
        rcases dropComment_head y l' with h0 | ⟨t, ht⟩
        · rw [h0]; rfl
        · rw [ht, hasDD, Bool.or_eq_false_iff]
          constructor
          · rcases Decidable.not_and_iff_or_not.mp hxy with h | h <;> simp [h]
          · rw [← ht]; exact ih

theorem dropComment_id : ∀ l : List Char, hasDD l = false → dropComment l = l := by
  intro l
  induction l with
  | nil => intro _; rfl
  | cons x l ih =>
    intro h
    cases l with
    | nil => rfl
    | cons y l' =>
      rw [hasDD, Bool.or_eq_false_iff] at h
      rw [dropComment]
      split
      · next hxy => simp [hxy.1, hxy.2] at h
      · rw [ih h.2]

theorem splitNL_single : ∀ l : List Char, '\n' ∉ l → splitNL l = [l] := by
  intro l
  induction l with
  | nil => intro _; rfl
  | cons c rest ih =>
    intro h
    have hc : ¬c = '\n' := fun hc => h (hc ▸ List.mem_cons_self c rest)
    have hr : '\n' ∉ rest := fun hr => h (List.mem_cons_of_mem c hr)
    rw [splitNL, if_neg hc, ih hr]

theorem hasDD_joinSep {sep : Char} (hs : ¬sep = '-') :
    ∀ ls : List (List Char), (∀ x ∈ ls, hasDD x = false) →
      hasDD (joinSep sep ls) = false := by
  intro ls
  induction ls with
  | nil => intro _; rfl
  | cons x ls ih =>
    intro h
    cases ls with
    | nil => exact h x (List.mem_singleton_self x)
    | cons y t =>
      rw [joinSep]
      exact hasDD_append_mid hs _ _ (h x (List.mem_cons_self x _))
        (ih fun z hz => h z (List.mem_cons_of_mem x hz))

theorem mem_joinSep {sep : Char} {c : Char} :
    ∀ ls : List (List Char), c ∈ joinSep sep ls → c = sep ∨ ∃ x ∈ ls, c ∈ x := by
  intro ls
  induction ls with
  | nil => intro h; cases h
  | cons x ls ih =>
    intro h
    cases ls with
    | nil => exact Or.inr ⟨x, List.mem_singleton_self x, h⟩
    | cons y t =>
      rw [joinSep] at h
      rcases List.mem_append.mp h with h | h
      · exact Or.inr ⟨x, List.mem_cons_self x _, h⟩
      · rcases List.mem_cons.mp h with h | h
        · exact Or.inl h
        · rcases ih h with h | ⟨z, hz, hcz⟩
          · exact Or.inl h
          · exact Or.inr ⟨z, List.mem_cons_of_mem x hz, hcz⟩

theorem removeComments_noDD (l : List Char) : hasDD (removeComments l) = false := by
  refine hasDD_joinSep (by decide) _ ?_
  intro x hx
  rcases List.mem_map.mp hx with ⟨line, _, rfl⟩
  exact dropComment_noDD line

theorem removeComments_id (l : List Char) (hnl : '\n' ∉ l) (hdd : hasDD l = false) :
    removeComments l = l := by
  rw [removeComments, splitNL_single l hnl, List.map_singleton, dropComment_id l hdd]
  rfl

/-! ## Word splitting -/

theorem wordsAux_word_cat : ∀ (w : List Char), (∀ c ∈ w, pySpace c = false) →
    ∀ (acc l : List Char), wordsAux acc (w ++ l) = wordsAux (w.reverse ++ acc) l := by
  intro w
  induction w with
  | nil => intro _ acc l; rfl
  | cons c w' ih =>
    intro hw acc l
    have hc : pySpace c = false := hw c (List.mem_cons_self c w')
    have hw' : ∀ x ∈ w', pySpace x = false := fun x hx => hw x (List.mem_cons_of_mem c hx)
    rw [List.cons_append, wordsAux, if_neg (by simp [hc])]
    rw [ih hw' (c :: acc) l]
    rw [List.reverse_cons, List.append_assoc, List.singleton_append]

theorem wordsAux_space_cons (acc : List Char) (hacc : acc ≠ []) (c : Char)
    (hc : pySpace c = true) (l : List Char) :
    wordsAux acc (c :: l) = acc.reverse :: wordsAux [] l := by
  rw [wordsAux, if_pos (by simp [hc]), if_neg hacc]

theorem pyWords_joinSep : ∀ ws : List (List Char), GoodWords ws →
    pyWords (joinSep ' ' ws) = ws := by
  intro ws
  induction ws with
  | nil => intro _; rfl
  | cons w ws ih =>
    intro h
    have hw := h w (List.mem_cons_self w ws)
    have hws : GoodWords ws := fun z hz => h z (List.mem_cons_of_mem w hz)
    have hwrev : w.reverse ≠ [] := by
      simpa using hw.1
    cases ws with
    | nil =>
      show wordsAux [] (joinSep ' ' [w]) = [w]
      have : joinSep ' ' [w] = w ++ [] := by simp [joinSep]
      rw [this, wordsAux_word_cat w hw.2, List.append_nil, wordsAux, if_neg hwrev,
        List.reverse_reverse]
    | cons y t =>
      show wordsAux [] (joinSep ' ' (w :: y :: t)) = w :: y :: t
      rw [joinSep, wordsAux_word_cat w hw.2, List.append_nil,
        wordsAux_space_cons w.reverse hwrev ' ' (by decide),
        List.reverse_reverse]
      exact congrArg (w :: ·) (ih hws)

theorem wordsAux_good : ∀ (l acc : List Char), (∀ c ∈ acc, pySpace c = false) →
    GoodWords (wordsAux acc l) := by
  intro l
  induction l with
  | nil =>
    intro acc hacc
    rw [wordsAux]
    split
    · intro w hw; cases hw
    · next hne =>
      intro w hw
      rcases List.mem_singleton.mp hw with rfl
      refine ⟨by simpa using hne, ?_⟩
      intro c hc
      exact hacc c (List.mem_reverse.mp hc)
  | cons c rest ih =>
    intro acc hacc
    rw [wordsAux]
    split
    · next hc =>
      split
      · exact ih [] (by intro x hx; cases hx)
      · next hne =>
        intro w hw
        rcases List.mem_cons.mp hw with rfl | hw
        · refine ⟨by simpa using hne, ?_⟩
          intro x hx
          exact hacc x (List.mem_reverse.mp hx)
        · exact ih [] (by intro x hx; cases hx) w hw
    · next hc =>
      refine ih (c :: acc) ?_
      intro x hx
      rcases List.mem_cons.mp hx with rfl | hx
      · simpa using hc
      · exact hacc x hx

theorem pyWords_good (l : List Char) : GoodWords (pyWords l) :=
  wordsAux_good l [] (by intro x hx; cases hx)

theorem wordsAux_noDD : ∀ (l acc : List Char), hasDD (acc.reverse ++ l) = false →
    DDfreeWords (wordsAux acc l) := by
  intro l
  induction l with
  | nil =>
    intro acc h
    rw [List.append_nil] at h
    rw [wordsAux]
    split
    · intro w hw; cases hw
    · intro w hw
      rcases List.mem_singleton.mp hw with rfl
      exact h
  | cons c rest ih =>
    intro acc h
    rw [wordsAux]
    have hflush : hasDD acc.reverse = false := hasDD_append_left _ _ h
    have hrest : hasDD rest = false := by
      have h' : hasDD ((acc.reverse ++ [c]) ++ rest) = false := by
        rw [List.append_assoc, List.singleton_append]
        exact h
      exact hasDD_append_right _ _ h'
    split
    · split
      · exact ih [] (by simpa using hrest)
      · intro w hw
        rcases List.mem_cons.mp hw with rfl | hw
        · exact hflush
        · exact ih [] (by simpa using hrest) w hw
    · refine ih (c :: acc) ?_
      rw [List.reverse_cons, List.append_assoc, List.singleton_append]
      exact h

theorem pyWords_noDD (l : List Char) (h : hasDD l = false) : DDfreeWords (pyWords l) :=
  wordsAux_noDD l [] (by simpa using h)

/-! ## Appending the terminator at the word level -/

theorem appendLastSemi_ne_nil : ∀ ws : List (List Char), appendLastSemi ws ≠ [] := by
  intro ws
  cases ws with
  | nil => simp [appendLastSemi]
  | cons w ws =>
    cases ws with
    | nil => simp [appendLastSemi]
    | cons y t => simp [appendLastSemi]

theorem joinSep_cons_of_ne (s : Char) (w : List Char) :
    ∀ ws : List (List Char), ws ≠ [] →
      joinSep s (w :: ws) = w ++ s :: joinSep s ws := by
  intro ws h
  cases ws with
  | nil => exact absurd rfl h
  | cons y t => rfl

theorem joinSep_appendLastSemi : ∀ ws : List (List Char),
    joinSep ' ' (appendLastSemi ws) = joinSep ' ' ws ++ [';'] := by
  intro ws
  induction ws with
  | nil => rfl
  | cons w ws ih =>
    cases ws with
    | nil => rfl
    | cons y t =>
      rw [appendLastSemi,
        joinSep_cons_of_ne ' ' w (appendLastSemi (y :: t)) (appendLastSemi_ne_nil _),
        ih, joinSep, List.append_assoc, List.cons_append]

theorem appendLastSemi_good : ∀ ws : List (List Char), GoodWords ws →
    GoodWords (appendLastSemi ws) := by
  intro ws
  induction ws with
  | nil =>
    intro _ w hw
    rcases List.mem_singleton.mp hw with rfl
    exact ⟨by decide, by decide⟩
  | cons w ws ih =>
    intro h
    have hw := h w (List.mem_cons_self w ws)
    have hws : GoodWords ws := fun z hz => h z (List.mem_cons_of_mem w hz)
    cases ws with
    | nil =>
      intro z hz
      rcases List.mem_singleton.mp hz with rfl
      refine ⟨by simp, ?_⟩
      intro c hc
      rcases List.mem_append.mp hc with hc | hc
      · exact hw.2 c hc
      · rcases List.mem_singleton.mp hc with rfl
        decide
    | cons y t =>
      intro z hz
      rcases List.mem_cons.mp hz with rfl | hz
      · exact hw
      · exact ih hws z hz

theorem appendLastSemi_noDD : ∀ ws : List (List Char), DDfreeWords ws →
    DDfreeWords (appendLastSemi ws) := by
  intro ws
  induction ws with
  | nil =>
    intro _ w hw
    rcases List.mem_singleton.mp hw with rfl
    rfl
  | cons w ws ih =>
    intro h
    have hw := h w (List.mem_cons_self w ws)
    have hws : DDfreeWords ws := fun z hz => h z (List.mem_cons_of_mem w hz)
    cases ws with
    | nil =>
      intro z hz
      rcases List.mem_singleton.mp hz with rfl
      exact hasDD_append_mid (by decide) w [] hw rfl
    | cons y t =>
      intro z hz
      rcases List.mem_cons.mp hz with rfl | hz
      · exact hw
      · exact ih hws z hz

/-! ## Structure of a space-joined good word list -/

theorem joinSep_head_nonspace : ∀ ws : List (List Char), GoodWords ws → ws ≠ [] →
    ∃ c t, joinSep ' ' ws = c :: t ∧ pySpace c = false := by
  intro ws
  cases ws with
  | nil => intro _ h; exact absurd rfl h
  | cons w ws =>
    intro hg _
    have hw := hg w (List.mem_cons_self w ws)
    rcases hx : w with _ | ⟨c, w'⟩
    · exact absurd hx hw.1
    · have hc : pySpace c = false := hw.2 c (hx ▸ List.mem_cons_self c w')
      cases ws with
      | nil => exact ⟨c, w', by simp [joinSep, hx], hc⟩
      | cons y t =>
        refine ⟨c, w' ++ ' ' :: joinSep ' ' (y :: t), ?_, hc⟩
        simp [joinSep, hx]

theorem joinSep_no_nl (ws : List (List Char)) (hg : GoodWords ws) :
    '\n' ∉ joinSep ' ' ws := by
  intro h
  rcases mem_joinSep ws h with h | ⟨x, hx, hcx⟩
  · cases h
  · have := (hg x hx).2 '\n' hcx
    simp [pySpace] at this

theorem joinSep_space_char (ws : List (List Char)) (hg : GoodWords ws) :
    ∀ c ∈ joinSep ' ' ws, pySpace c = true → c = ' ' := by
  intro c hc hsp
  rcases mem_joinSep ws hc with h | ⟨x, hx, hcx⟩
  · exact h
  · rw [(hg x hx).2 c hcx] at hsp
    cases hsp

/-! ## Stripping -/

theorem stripLeft_id (l : List Char) (h : ∀ c t, l = c :: t → pySpace c = false) :
    stripLeft l = l := by
  cases l with
  | nil => rfl
  | cons c t =>
    rw [stripLeft, List.dropWhile_cons, if_neg]
    simp [h c t rfl]

theorem stripRight_id (l : List Char) (h : l.getLast? = some ';') :
    stripRight l = l := by
  have hrev : l.reverse.head? = some ';' := by
    rw [List.head?_reverse, h]
  rcases hx : l.reverse with _ | ⟨c, t⟩
  · rw [hx] at hrev; cases hrev
  · rw [hx] at hrev
    have hc : c = ';' := by
      simpa using hrev
    rw [stripRight, hx, List.dropWhile_cons, if_neg (by simp [hc, pySpace])]
    rw [← hx, List.reverse_reverse]

theorem pyStrip_id (l : List Char) (hh : ∀ c t, l = c :: t → pySpace c = false)
    (hl : l.getLast? = some ';') : pyStrip l = l := by
  rw [pyStrip, stripLeft_id l hh, stripRight_id l hl]

theorem endsSemi_iff (l : List Char) : endsSemi l = true ↔ l.getLast? = some ';' := by
  rw [endsSemi]
  rcases h : l.getLast? with _ | c
  · simp
  · simp

theorem listEnds_fence3_of_semi (l : List Char) (h : l.getLast? = some ';') :
    listEnds fence3 l = false := by
  have hrev : l.reverse.head? = some ';' := by
    rw [List.head?_reverse, h]
  rcases hx : l.reverse with _ | ⟨c, t⟩
  · rw [hx] at hrev; cases hrev
  · have hc : c = ';' := by
      rw [hx] at hrev; simpa using hrev
    have hf : fence3.reverse = '`' :: '`' :: '`' :: [] := by decide
    rw [listEnds, hx, hc, hf, listStarts, if_neg (by decide)]

/-! ## Shape of a sanitized statement -/

theorem clean_shape (l : List Char) :
    ∃ ws : List (List Char), GoodWords ws ∧ DDfreeWords ws ∧ ws ≠ [] ∧
      cleanSql l = joinSep ' ' ws ∧ (cleanSql l).getLast? = some ';' := by
  have hdd2 : hasDD (removeComments (fenceStrip l)) = false := removeComments_noDD _
  set s2 := removeComments (fenceStrip l) with hs2
  set ws0 := pyWords s2 with hws0
  have hg0 : GoodWords ws0 := pyWords_good s2
  have hdd0 : DDfreeWords ws0 := pyWords_noDD s2 hdd2
  have hcollapse : collapseWS s2 = joinSep ' ' ws0 := rfl
  by_cases hsemi : endsSemi (joinSep ' ' ws0) = true
  · have hw0ne : ws0 ≠ [] := by
      intro h0
      rw [h0] at hsemi
      cases hsemi
    have hcl : cleanSql l = pyStrip (joinSep ' ' ws0) := by
      show pyStrip (ensureSemi (collapseWS s2)) = _
      rw [hcollapse, ensureSemi, if_pos hsemi]
    have hlast : (joinSep ' ' ws0).getLast? = some ';' := (endsSemi_iff _).mp hsemi
    obtain ⟨c, t, heq, hcns⟩ := joinSep_head_nonspace ws0 hg0 hw0ne
    have hstrip : pyStrip (joinSep ' ' ws0) = joinSep ' ' ws0 := by
      refine pyStrip_id _ ?_ hlast
      intro c' t' h'
      rw [heq] at h'
      cases h'
      exact hcns
    refine ⟨ws0, hg0, hdd0, hw0ne, hcl.trans hstrip, ?_⟩
    rw [hcl, hstrip]
    exact hlast
  · set ws := appendLastSemi ws0 with hws
    have hg : GoodWords ws := appendLastSemi_good ws0 hg0
    have hdd : DDfreeWords ws := appendLastSemi_noDD ws0 hdd0
    have hne : ws ≠ [] := appendLastSemi_ne_nil ws0
    have hjoin : joinSep ' ' ws = joinSep ' ' ws0 ++ [';'] := joinSep_appendLastSemi ws0
    have hcl : cleanSql l = pyStrip (joinSep ' ' ws) := by
      show pyStrip (ensureSemi (collapseWS s2)) = _
      rw [hcollapse, ensureSemi, if_neg hsemi, hjoin]
    have hlast : (joinSep ' ' ws).getLast? = some ';' := by
      rw [hjoin]
      exact List.getLast?_concat _
    obtain ⟨c, t, heq, hcns⟩ := joinSep_head_nonspace ws hg hne
    have hstrip : pyStrip (joinSep ' ' ws) = joinSep ' ' ws := by
      refine pyStrip_id _ ?_ hlast
      intro c' t' h'
      rw [heq] at h'
      cases h'
      exact hcns
    refine ⟨ws, hg, hdd, hne, hcl.trans hstrip, ?_⟩
    rw [hcl, hstrip]
    exact hlast

theorem cleanSql_fixed (l : List Char) (ws : List (List Char)) (hg : GoodWords ws)
    (hdd : DDfreeWords ws) (hne : ws ≠ []) (heq : l = joinSep ' ' ws)
    (hlast : l.getLast? = some ';') : cleanSql l = l := by
  have hA : fenceStrip l = l := by
    have hE : listEnds fence3 l = false := listEnds_fence3_of_semi l hlast
    simp [fenceStrip, hE]
  have hB : removeComments l = l := by
    refine removeComments_id l ?_ ?_
    · rw [heq]; exact joinSep_no_nl ws hg
    · rw [heq]; exact hasDD_joinSep (by decide) ws hdd
  have hC : collapseWS l = l := by
    rw [heq, collapseWS, pyWords_joinSep ws hg]
  have hD : ensureSemi l = l := by
    rw [ensureSemi, if_pos ((endsSemi_iff l).mpr hlast)]
  have hE2 : pyStrip l = l := by
    obtain ⟨c, t, hjeq, hcns⟩ := joinSep_head_nonspace ws hg hne
    refine pyStrip_id l ?_ hlast
    intro c' t' h'
    rw [heq, hjeq] at h'
    cases h'
    exact hcns
  rw [cleanSql, hA, hB, hC, hD, hE2]

theorem cleanSql_idem (l : List Char) : cleanSql (cleanSql l) = cleanSql l := by
  obtain ⟨ws, hg, hdd, hne, heq, hlast⟩ := clean_shape l
  exact cleanSql_fixed (cleanSql l) ws hg hdd hne heq hlast

/-! ## Claim C1 -/

/-- C1: the SQL sanitization step is idempotent — for every raw model text
`x`, `_clean_sql_response(_clean_sql_response(x)) = _clean_sql_response(x)`,
i.e. re-sanitizing already-clean SQL is a no-op. -/
theorem c1_sanitize_idempotent (x : String) :
    cleanSqlStr (cleanSqlStr x) = cleanSqlStr x := by
  show String.mk (cleanSql (cleanSql x.toList)) = String.mk (cleanSql x.toList)
  exact congrArg String.mk (cleanSql_idem x.toList)

/-! ## Claim C2 -/

/-- C2 (amended): for every raw model text `x`, the output of
`_clean_sql_response(x)` ends with the statement terminator `';'`, contains
no line-comment starter `--`, and has its whitespace normalized: the output
is exactly its whitespace-separated words joined by single spaces (hence no
leading/trailing whitespace, no run of two spaces) and every whitespace
character in it is a plain space.  The original claim's further guarantee
that the output contains no markdown fence marker does not hold (see the
counterexample); fences are only removed when they delimit the whole text. -/
theorem c2_sanitized_shape (x : String) :
    (cleanSqlStr x).toList.getLast? = some ';' ∧
    hasDD (cleanSqlStr x).toList = false ∧
    joinSep ' ' (pyWords (cleanSqlStr x).toList) = (cleanSqlStr x).toList ∧
    (∀ c ∈ (cleanSqlStr x).toList, pySpace c = true → c = ' ') := by
  obtain ⟨ws, hg, hdd, hne, heq, hlast⟩ := clean_shape x.toList
  have hL : (cleanSqlStr x).toList = cleanSql x.toList := rfl
  rw [hL]
  refine ⟨hlast, ?_, ?_, ?_⟩
  · rw [heq]
    exact hasDD_joinSep (by decide) ws hdd
  · rw [heq, pyWords_joinSep ws hg]
  · rw [heq]
    exact joinSep_space_char ws hg

/-- C2 counterexample: the raw text `"```x"` starts with a fence marker but
does not end with one, so `_clean_sql_response` leaves the marker in place:
the output is `"```x;"`, which still contains the fence marker `"```"`,
refuting "the output contains no markdown fence marker". -/
theorem c2_fence_counterexample :
    cleanSqlStr c2input = ("```x;") ∧
    hasSub fence3 (cleanSqlStr c2input).toList = true := by
  constructor
  · decide
  · decide

/-! ## Claim C3 -/

/-- C3 (amended): for `/query`, `/query/stream` and `/query/visualize`, the
scoped session opened for the request is closed before the handler returns
on every deterministic exit path (success or SQL execution error) — the
session counts balance for every store and backend behaviour.  The original
claim also asserted this for `/query/clean`, which is false: that handler
closes the session only on its success path (see the counterexample).
Asynchronous cancellation is outside the embedding. -/
theorem c3_sessions_closed (env : Env) (q : String) (hint : Option String) :
    (answer_question env q).2.closed = (answer_question env q).2.opened ∧
    (answer_question_stream env q).2.closed = (answer_question_stream env q).2.opened ∧
    (visualize_data env q hint).2.closed = (visualize_data env q hint).2.opened := by
  refine ⟨?_, ?_, ?_⟩
  · by_cases hb : strStarts errorWord (genSqlOf env) = true
    · simp [answer_question, hb]
    · have hb' : strStarts errorWord (genSqlOf env) = false := by simpa using hb
      cases hex : env.exec (genSqlOf env) with
      | err m => simp [answer_question, hb', hex]
      | ok rows =>
        by_cases hf : strStarts errorWord (fmtOf env rows) = true
        · simp [answer_question, hb', hex, hf]
        · have hf' : strStarts errorWord (fmtOf env rows) = false := by simpa using hf
          simp [answer_question, hb', hex, hf']
  · by_cases hb : strStarts errorWord (genSqlOf env) = true
    · simp [answer_question_stream, hb]
    · have hb' : strStarts errorWord (genSqlOf env) = false := by simpa using hb
      cases hex : env.exec (genSqlOf env) with
      | err m => simp [answer_question_stream, hb', hex]
      | ok rows =>
        by_cases hf : strStarts errorWord (fmtOf env rows) = true
        · simp [answer_question_stream, hb', hex, hf]
        · have hf' : strStarts errorWord (fmtOf env rows) = false := by simpa using hf
          simp [answer_question_stream, hb', hex, hf']
  · by_cases hb : strStarts errorWord (genSqlOf env) = true
    · simp [visualize_data, hb]
    · have hb' : strStarts errorWord (genSqlOf env) = false := by simpa using hb
      cases hex : env.exec (genSqlOf env) with
      | err m => simp [visualize_data, hb', hex]
      | ok rows =>
        cases hch : chartSection rows hint with
        | error e => simp [visualize_data, hb', hex, hch]
        | ok out => simp [visualize_data, hb', hex, hch]

/-- C3 counterexample: in `clean_answer` (`/query/clean`) a store-level
execution error bypasses `session.close()` — with a backend that generates
valid SQL and a store that raises, the handler opens one session and closes
none, refuting "the session is closed on every exit path for each of the
endpoints that open a session". -/
theorem c3_clean_leak :
    (clean_answer envLeak qX).2.opened = 1 ∧ (clean_answer envLeak qX).2.closed = 0 := by
  constructor
  · decide
  · decide

/-! ## Claim C4 -/

/-- C4: `generate_sql_query` and `format_response` are total functions of
the backend behaviour (they never raise): for every state of the model
handle and every backend outcome (raising, or returning empty or non-empty
text), either the result is an error-marker string — the reserved prefix
followed by the embedded failure reason, and it starts with `"Error"` — or
the call succeeded and the result is the sanitized (resp. stripped) model
text. -/
theorem c4_llm_never_raises (init : Bool) (resp fresp : GenOutcome) :
    (((∃ reason, generate_sql_query init resp = errGenPrefix ++ reason) ∧
        strStarts errorWord (generate_sql_query init resp) = true) ∨
      (∃ t, resp = .returns t ∧ init = true ∧ ¬t = ("") ∧
        generate_sql_query init resp = cleanSqlStr t)) ∧
    (((∃ reason, format_response init fresp = errFmtPrefix ++ reason) ∧
        strStarts errorWord (format_response init fresp) = true) ∨
      (∃ t, fresp = .returns t ∧ init = true ∧ ¬t = ("") ∧
        format_response init fresp = pyStripStr t)) := by
  constructor
  · cases init with
    | false => exact Or.inl ⟨⟨_, rfl⟩, by rw [show generate_sql_query false resp =
        errGenPrefix ++ ("Model not initialized") from rfl]; exact strStarts_errGen _⟩
    | true =>
      cases resp with
      | raises m => exact Or.inl ⟨⟨m, rfl⟩, strStarts_errGen m⟩
      | returns t =>
        by_cases ht : t = ("")
        · subst ht
          exact Or.inl ⟨⟨_, rfl⟩, strStarts_errGen _⟩
        · exact Or.inr ⟨t, rfl, rfl, ht, by simp [generate_sql_query, ht]⟩
  · cases init with
    | false => exact Or.inl ⟨⟨_, rfl⟩, by rw [show format_response false fresp =
        errFmtPrefix ++ ("Model not initialized") from rfl]; exact strStarts_errFmt _⟩
    | true =>
      cases fresp with
      | raises m => exact Or.inl ⟨⟨m, rfl⟩, strStarts_errFmt m⟩
      | returns t =>
        by_cases ht : t = ("")
        · subst ht
          exact Or.inl ⟨⟨_, rfl⟩, strStarts_errFmt _⟩
        · exact Or.inr ⟨t, rfl, rfl, ht, by simp [format_response, ht]⟩

/-! ## Claim C5 -/

/-- C5: the `/query` handler returns HTTP 400 with the error-marker as
detail when the generator's or the formatter's result starts with `"Error"`
(short-circuiting), HTTP 500 with the store message when execution raises,
and on success the structured body `{question, sql_query, answer, data}`
with the generated SQL, the formatted answer, and the executed rows. -/
theorem c5_query_endpoint (env : Env) (q : String) :
    (strStarts errorWord (genSqlOf env) = true →
      answer_question env q = (.httpError 400 (genSqlOf env), ⟨0, 0⟩)) ∧
    (∀ m, strStarts errorWord (genSqlOf env) = false →
      env.exec (genSqlOf env) = .err m →
      answer_question env q = (.httpError 500 m, ⟨1, 1⟩)) ∧
    (∀ rows, strStarts errorWord (genSqlOf env) = false →
      env.exec (genSqlOf env) = .ok rows →
      strStarts errorWord (fmtOf env rows) = true →
      answer_question env q = (.httpError 400 (fmtOf env rows), ⟨1, 1⟩)) ∧
    (∀ rows, strStarts errorWord (genSqlOf env) = false →
      env.exec (genSqlOf env) = .ok rows →
      strStarts errorWord (fmtOf env rows) = false →
      answer_question env q = (.success q (genSqlOf env) (fmtOf env rows) rows, ⟨1, 1⟩)) := by
  refine ⟨?_, ?_, ?_, ?_⟩
  · intro h
    simp [answer_question, h]
  · intro m h1 h2
    simp [answer_question, h1, h2]
  · intro rows h1 h2 h3
    simp [answer_question, h1, h2, h3]
  · intro rows h1 h2 h3
    simp [answer_question, h1, h2, h3]

/-- Witness for C5: with an uninitialized model handle the generator
signals an error-marker and `/query` answers 400 with it as detail. -/
theorem c5_query_endpoint_witness :
    answer_question envNoModel qX = (.httpError 400 (genSqlOf envNoModel), ⟨0, 0⟩) :=
  (c5_query_endpoint envNoModel qX).1 (by decide)

/-! ## Claim C6 -/

/-- C6: when no chart-type hint is supplied, the chart type is selected
from the result rows exactly as described — `line` if a `date` column
exists and there are more than 3 rows, else `bar` for at most 10 rows, else
`histogram`; instantiated through the full `/query/visualize` pipeline on a
dated 5-row set, an undated 7-row set and an undated 50-row set. -/
theorem c6_chart_autoselect :
    (∀ rows : List DRow,
      selectChartType rows none =
        (if ("date") ∈ dfColumns rows ∧ rows.length > 3 then ("line")
         else if rows.length ≤ 10 then ("bar")
         else ("histogram"))) ∧
    vizChartType (visualize_data envLine qX none) = some ("line") ∧
    vizChartType (visualize_data envBar7 qX none) = some ("bar") ∧
    vizChartType (visualize_data envHist50 qX none) = some ("histogram") := by
  refine ⟨fun rows => rfl, by decide, by decide, by decide⟩

/-! ## Claim C7 -/

/-- C7 (amended): whenever the result rows contain a `date` column, the
rows are sorted by that column in ascending order before charting (for
every chart type whose charting succeeds), and — when the effective chart
type is `line` — every numeric column other than the date column is plotted
as its own separate series against the date axis.  The original claim's
unconditional "every numeric column is plotted as a separate series" fails
for a `bar` chart, which plots only the first numeric column (see the
counterexample). -/
theorem c7_date_sorting (rows : List DRow) (hint : Option String)
    (hdate : ("date") ∈ dfColumns rows) :
    List.Sorted rowDateLe (sortByDate rows) ∧
    (sortByDate rows).Perm rows ∧
    (∀ o, chartSection rows hint = .ok o → o.rows = sortByDate rows) ∧
    (selectChartType rows hint = ("line") →
      ∃ o, chartSection rows hint = .ok o ∧
        ∀ c ∈ dfColumns rows, isNumericColB rows c = true → ¬c = ("date") →
          plotsSeries o.cmds c = true) := by
  refine ⟨List.sorted_insertionSort rowDateLe rows, List.perm_insertionSort rowDateLe rows,
    ?_, ?_⟩
  · intro o h
    simp only [chartSection] at h
    rw [if_pos hdate] at h
    split at h
    · cases h
      rfl
    · split at h
      · split at h
        · cases h
        · cases h
          rfl
      · cases h
        rfl
  · intro htype
    refine ⟨⟨selectChartType rows hint, sortByDate rows,
      ((dfColumns rows).filter fun c =>
        if c = ("date") then false else isNumericColB rows c).map
          (fun c => PlotCmd.plotLine ("date") c)⟩, ?_, ?_⟩
    · simp only [chartSection]
      rw [if_pos hdate, if_pos htype]
    · intro c hcmem hnum hne
      rw [plotsSeries, List.any_eq_true]
      refine ⟨PlotCmd.plotLine ("date") c, ?_, by simp⟩
      refine List.mem_map_of_mem _ (List.mem_filter.mpr ⟨hcmem, ?_⟩)
      rw [if_neg hne, hnum]

/-- Witness for C7: the out-of-order five-row dated set is sorted
ascending by its date column, as a permutation of the input. -/
theorem c7_date_sorting_witness :
    List.Sorted rowDateLe (sortByDate rowsLine5) ∧
    (sortByDate rowsLine5).Perm rowsLine5 :=
  ⟨(c7_date_sorting rowsLine5 none (by decide)).1,
   (c7_date_sorting rowsLine5 none (by decide)).2.1⟩

/-- C7 counterexample: on two dated rows with numeric columns `a` and `b`
and an explicit `bar` hint, the charting section plots only the first
numeric column — column `b` is numeric and distinct from the date column
yet gets no series, refuting the unconditional claim. -/
theorem c7_bar_counterexample :
    ("date") ∈ dfColumns rowsC7 ∧
    isNumericColB rowsC7 ("b") = true ∧
    ¬("b") = ("date") ∧
    (chartCmdsOf (chartSection rowsC7 (some ("bar")))).map
      (fun cs => plotsSeries cs ("b")) = some false := by
  refine ⟨by decide, by decide, by decide, by decide⟩

/-! ## Claim C8 -/

/-- C8: on every successful streaming request the emitted chunk sequence is
exactly the single SQL line `"Generated SQL: <sql>\n\n"` followed by the
formatted answer's words, one chunk per word in original left-to-right
order (each flushed as `word + " "`) — so the SQL line strictly precedes
every answer token and the tokens reassemble the answer's word sequence. -/
theorem c8_stream_order (env : Env) (q : String) (rows : List DRow)
    (hgen : strStarts errorWord (genSqlOf env) = false)
    (hex : env.exec (genSqlOf env) = .ok rows)
    (hfmt : strStarts errorWord (fmtOf env rows) = false) :
    (answer_question_stream env q).1 =
      (("Generated SQL: ") ++ genSqlOf env ++ ("\n\n")) ::
        (pyWordsStr (fmtOf env rows)).map (fun w => w ++ (" ")) := by
  simp [answer_question_stream, hgen, hex, hfmt]

/-- Witness for C8: a concrete working backend streams the SQL line and
then the answer words. -/
theorem c8_stream_order_witness :
    (answer_question_stream envStream qX).1 =
      (("Generated SQL: ") ++ genSqlOf envStream ++ ("\n\n")) ::
        (pyWordsStr (fmtOf envStream [])).map (fun w => w ++ (" ")) :=
  c8_stream_order envStream qX [] (by decide) rfl (by decide)

/-! ## Claim C9 -/

/-- C9: the raw backend output
`"```sql\nSELECT * FROM product_total_sales -- all\n```"` sanitizes to
exactly `"SELECT * FROM product_total_sales;"` (fence stripped, trailing
line comment removed, whitespace normalized, terminator appended), and with
a deterministic backend returning that raw string `generate_sql_query`
returns exactly that sanitized statement. -/
theorem c9_sanitize_example :
    cleanSqlStr c9raw = c9expected ∧
    generate_sql_query true (.returns c9raw) = c9expected := by
  constructor
  · decide
  · decide

/-! ## Claim C10 -/

/-- C10 (implicit): if the executed SQL returns zero rows, the
`/query/visualize` endpoint never returns an image: the empty tabular
result has no columns, auto-selection picks `bar`, the category-axis lookup
of the first column faults with an index error, and the handler converts
that fault into an HTTP 500 — even though the executor itself yielded the
empty row sequence without fault. -/
theorem c10_empty_rows_500 (env : Env) (q : String) (hint : Option String)
    (hgen : strStarts errorWord (genSqlOf env) = false)
    (hex : env.exec (genSqlOf env) = .ok ([] : List DRow)) :
    selectChartType ([] : List DRow) none = ("bar") ∧
    chartSection ([] : List DRow) hint = .error idxErr0 ∧
    visualize_data env q hint = (.httpError 500 idxErr0, ⟨1, 1⟩) := by
  have h2 : chartSection ([] : List DRow) hint = .error idxErr0 := rfl
  refine ⟨by decide, h2, ?_⟩
  simp [visualize_data, hgen, hex, h2]

/-- Witness for C10: a store returning zero rows makes `/query/visualize`
answer 500 with the index error as detail. -/
theorem c10_empty_rows_500_witness :
    visualize_data envEmpty qX none = (.httpError 500 idxErr0, ⟨1, 1⟩) :=
  (c10_empty_rows_500 envEmpty qX none (by decide) rfl).2.2

end Ecom
